import Mathlib

/-!
Verification development for the elastic-agent repository.

The embedding covers the parts of the code the claims of the specification are
about:

* the condensation unit (`ToolSystem.estimateTokens`, `ToolSystem.condenseContent`
  in `src/src/tools.ts`, lines 62-84),
* the result rephraser (`ToolSystem.rephraseResults`, `src/src/tools.ts`,
  lines 87-134),
* the structured-search tool (`ToolSystem.searchElastic`, `src/src/tools.ts`,
  lines 275-371),
* the streaming tool-call reconstruction of the OpenAI provider
  (`OpenAIProvider.streamCompletion`, `src/src/providers/openai-provider.ts`,
  lines 72-99),
* the agent orchestration loop (`AIAgent.processQuery`,
  `AIAgent.initializeState`, `AIAgent.callAIProvider`, `AIAgent.handleToolCalls`
  in `src/src/upload-codebase.ts`, lines 443-630 of the concatenated file).

External collaborators (the Elasticsearch client, the OpenAI completion
endpoint, JSON serialization of backend hits, and JSON parsing of raw tool
arguments) are modelled as oracle parameters; everything the repository itself
computes is embedded directly.  JavaScript strings are modelled as Lean
`String`s (sequences of characters); JavaScript truthiness of optional string
and numeric fields is modelled explicitly where the source relies on it.
-/

namespace ElasticAgent

/-! ## Condensation unit (`src/src/tools.ts`, lines 62-84) -/

/-- Embeds `ToolSystem.estimateTokens` (tools.ts line 63):
`Math.ceil(text.length / 4)`. -/
def estimateTokens (text : String) : Nat :=
  (text.length + 3) / 4

/-- The literal condensation marker joining the two kept halves
(tools.ts line 83). -/
def condenseMarker : String := "\n\n... [CONTENT CONDENSED DUE TO LENGTH] ...\n\n"

/-- Embeds `ToolSystem.condenseContent` (tools.ts lines 68-84).
`Math.floor(maxTokens * 4 * 0.8)` is modelled as `maxTokens * 4 * 4 / 5`
(exact for every budget below 2^50, where the double-precision product
never crosses an integer boundary); `substring(0, h)` is `take h` and
`substring(length - h)` is `drop (length - h)` on the character data. -/
def condenseContent (content : String) (maxTokens : Nat := 128000) : String :=
  if estimateTokens content ≤ maxTokens then content
  else
    let maxCharacters := maxTokens * 4 * 4 / 5
    let halfMaxChars := maxCharacters / 2
    let beginning := String.mk (content.data.take halfMaxChars)
    let ending := String.mk (content.data.drop (content.length - halfMaxChars))
    beginning ++ condenseMarker ++ ending

/-- Reference definition written from the words of the specification (spec §4.4):
estimate the token count as ceil(length/4); if within budget return the input
unchanged; otherwise keep exactly the first floor(floor(budget*4*0.8)/2)
characters and the last floor(floor(budget*4*0.8)/2) characters, joined by the
condensation marker.  "The last n characters" is written independently of the
source, via `List.rtake`. -/
def condenseSpecRef (content : String) (budget : Nat) : String :=
  if (content.length + 4 - 1) / 4 ≤ budget then content
  else
    let effectiveBudget := budget * 4 * 4 / 5
    let n := effectiveBudget / 2
    String.mk (content.data.take n) ++ condenseMarker ++ String.mk (content.data.rtake n)

theorem overBudget_length_lower (content : String) (maxTokens : Nat)
    (h : maxTokens < estimateTokens content) :
    4 * maxTokens + 1 ≤ content.length := by
  unfold estimateTokens at h
  omega

theorem half_le_length (content : String) (maxTokens : Nat)
    (h : maxTokens < estimateTokens content) :
    maxTokens * 4 * 4 / 5 / 2 ≤ content.length := by
  have h1 := overBudget_length_lower content maxTokens h
  omega

/-- C3: the condensation function agrees with the reference definition of the spec
on every input string and positive token budget; on over-budget inputs the
output length is at most the effective character budget plus the marker
length, and the first and last `N` characters of the output equal the first
and last `N` characters of the original, for `N` half the effective budget. -/
theorem condenseContent_matches_spec (content : String) (maxTokens : Nat)
    (hpos : 0 < maxTokens) :
    condenseContent content maxTokens = condenseSpecRef content maxTokens ∧
    (maxTokens < estimateTokens content →
      (condenseContent content maxTokens).length
          ≤ maxTokens * 4 * 4 / 5 + condenseMarker.length ∧
      (condenseContent content maxTokens).data.take (maxTokens * 4 * 4 / 5 / 2)
          = content.data.take (maxTokens * 4 * 4 / 5 / 2) ∧
      (condenseContent content maxTokens).data.rtake (maxTokens * 4 * 4 / 5 / 2)
          = content.data.rtake (maxTokens * 4 * 4 / 5 / 2)) := by
  have hceil : (content.length + 4 - 1) / 4 = (content.length + 3) / 4 := by omega
  have hlen_eq : content.data.length = content.length := rfl
  constructor
  · unfold condenseContent condenseSpecRef estimateTokens
    rw [hceil]
    split
    · rfl
    · rename_i hover
      have hover' : maxTokens < estimateTokens content := by
        unfold estimateTokens; omega
      have hle := half_le_length content maxTokens hover'
      simp only [List.rtake, hlen_eq]
  · intro hover
    have hle := half_le_length content maxTokens hover
    have hnotle : ¬ estimateTokens content ≤ maxTokens := by omega
    set n := maxTokens * 4 * 4 / 5 / 2 with hn
    have hres : condenseContent content maxTokens
        = String.mk (content.data.take n) ++ condenseMarker
            ++ String.mk (content.data.drop (content.length - n)) := by
      unfold condenseContent
      rw [if_neg hnotle]
    have htakelen : (content.data.take n).length = n := by
      rw [List.length_take]
      omega
    have hdroplen : (content.data.drop (content.length - n)).length = n := by
      rw [List.length_drop]
      omega
    refine ⟨?_, ?_, ?_⟩
    · rw [hres, String.length_append, String.length_append]
      have h1 : (String.mk (content.data.take n)).length = n := htakelen
      have h2 : (String.mk (content.data.drop (content.length - n))).length = n := hdroplen
      rw [h1, h2]
      have : n + n ≤ maxTokens * 4 * 4 / 5 := by omega
      omega
    · rw [hres]
      have hdata : (String.mk (content.data.take n) ++ condenseMarker
          ++ String.mk (content.data.drop (content.length - n))).data
          = content.data.take n ++ (condenseMarker.data
              ++ content.data.drop (content.length - n)) := by
        rw [String.data_append, String.data_append, List.append_assoc]
      rw [hdata, List.take_append_of_le_length (by rw [htakelen]),
          List.take_take, Nat.min_self]
    · rw [hres]
      have hdata : (String.mk (content.data.take n) ++ condenseMarker
          ++ String.mk (content.data.drop (content.length - n))).data
          = (content.data.take n ++ condenseMarker.data)
              ++ content.data.drop (content.length - n) := by
        rw [String.data_append, String.data_append]
      rw [hdata]
      unfold List.rtake
      rw [List.length_append, List.length_append, htakelen, hdroplen,
          hlen_eq]
      have harith : n + condenseMarker.data.length + n - n
          = (content.data.take n ++ condenseMarker.data).length := by
        rw [List.length_append, htakelen]
        omega
      rw [harith, List.drop_left]

/-- Witness for C3 at a concrete over-budget input. -/
theorem condenseContent_matches_spec_witness :
    0 < 2 ∧
    (condenseContent "abcdefghij" 2 = condenseSpecRef "abcdefghij" 2 ∧
     (2 < estimateTokens "abcdefghij" →
       (condenseContent "abcdefghij" 2).length
           ≤ 2 * 4 * 4 / 5 + condenseMarker.length ∧
       (condenseContent "abcdefghij" 2).data.take (2 * 4 * 4 / 5 / 2)
           = "abcdefghij".data.take (2 * 4 * 4 / 5 / 2) ∧
       (condenseContent "abcdefghij" 2).data.rtake (2 * 4 * 4 / 5 / 2)
           = "abcdefghij".data.rtake (2 * 4 * 4 / 5 / 2))) :=
  ⟨by decide, condenseContent_matches_spec "abcdefghij" 2 (by decide)⟩

/-! ## Result rephraser (`src/src/tools.ts`, lines 87-134)

The OpenAI chat-completion request is modelled as an oracle
`complete : String → Except String (Option String)` mapping the user prompt
built by the rephraser to either a thrown error or the value of
`response.choices[0]?.message?.content` (absent content modelled as `none`). -/

/-- Embeds the prompt construction of `ToolSystem.rephraseResults`
(tools.ts lines 91-105). -/
def rephrasePrompt (originalQuery searchResults : String) : String :=
  "You are an AI assistant helping to summarize and rephrase search results from an Elasticsearch database.\n\nOriginal Query: \"" ++ originalQuery
    ++ "\"\n\nSearch Results:\n" ++ searchResults
    ++ "\n\nPlease provide a clear, concise, and well-structured response that:\n1. Directly addresses the original query\n2. Summarizes the most relevant findings from the search results\n3. Highlights key information and patterns\n4. Maintains important technical details\n5. Is easy to understand and actionable\n\nFocus on what would be most useful for someone trying to understand or work with this codebase data."

/-- Embeds `ToolSystem.rephraseResults` (tools.ts lines 87-134): on a thrown
completion error the input `searchResults` is returned unchanged (catch block,
lines 129-133); on success the content is returned unless it is falsy
(`response.choices[0]?.message?.content || searchResults`, line 123). -/
def rephraseResults (complete : String → Except String (Option String))
    (originalQuery searchResults : String) : String :=
  match complete (rephrasePrompt originalQuery searchResults) with
  | .error _ => searchResults
  | .ok none => searchResults
  | .ok (some c) => if c = "" then searchResults else c

/-- C6: whenever the completion-service request made by the rephraser fails,
the error is caught and the input result text is returned unchanged; the
function is total, so no error propagates to the surrounding tool call. -/
theorem rephraseResults_error_fallback
    (complete : String → Except String (Option String))
    (originalQuery resultText e : String)
    (h : complete (rephrasePrompt originalQuery resultText) = .error e) :
    rephraseResults complete originalQuery resultText = resultText := by
  unfold rephraseResults
  rw [h]

/-- A completion oracle that always fails, for the C6 witness. -/
def failingComplete : String → Except String (Option String) :=
  fun _ => .error "network error"

/-- Witness for C6 at a concrete failing completion service. -/
theorem rephraseResults_error_fallback_witness :
    failingComplete (rephrasePrompt "auth code" "raw results") = .error "network error" ∧
    rephraseResults failingComplete "auth code" "raw results" = "raw results" :=
  ⟨rfl, rephraseResults_error_fallback failingComplete "auth code" "raw results"
    "network error" rfl⟩

/-! ## Structured search (`src/src/tools.ts`, lines 275-371)

The Elasticsearch client is an oracle `backend`; `JSON.stringify` of the raw
backend response is an oracle `stringify`; `JSON.parse`d tool arguments are a
record of optional fields.  `searchElastic` returns the string result of the tool
together with the list of queries it issued to the backend. -/

/-- Shape of an Elasticsearch query object, as far as the source inspects it
(tools.ts lines 302-309 for logging and 346-361 for context extraction):
`match` (single field/value), `term`, `match_all`, `bool.must`, or anything
else. -/
inductive QueryObj where
  | matchQ (field value : String)
  | termQ (field value : String)
  | matchAll
  | boolMust (clauses : List QueryObj)
  | other

/-- Embeds the `ElasticQuery` interface (`src/src/types.ts`, lines 1-6), with
the `size` field always set as in `searchElastic` (tools.ts line 295). -/
structure ElasticQuery where
  index : String
  query : QueryObj
  size : Nat

/-- Embeds a hit of the `ElasticResult` interface (`src/src/types.ts`,
lines 8-19); the document source is an opaque payload. -/
structure ElasticHit where
  hitId : String
  score : Int
  source : String
deriving DecidableEq

/-- Embeds the `ElasticResult` interface (`src/src/types.ts`, lines 8-19). -/
structure ElasticResult where
  total : Nat
  hits : List ElasticHit
deriving DecidableEq

/-- Parsed arguments of a `search_elastic` tool call; `none` models an absent
field. -/
structure SearchArgs where
  index : Option String := none
  query : Option QueryObj := none
  size : Option Nat := none

/-- JavaScript truthiness test `args.size || 10` for the size argument
(tools.ts line 295): absent or zero yields the default 10. -/
def jsSizeOrDefault (s : Option Nat) : Nat :=
  match s with
  | none => 10
  | some n => if n = 0 then 10 else n

/-- Embeds the rephrasing-context extraction of `searchElastic`
(tools.ts lines 346-361): a `match` query yields its value, a `bool.must`
whose first clause is a `match` yields that value, everything else (including
the thrown access on an empty `must` array, caught at line 359) keeps the
default label. -/
def extractOriginalQuery (q : QueryObj) : String :=
  match q with
  | .matchQ _ v => v
  | .boolMust clauses =>
    match clauses.head? with
    | some (.matchQ _ v) => v
    | _ => "elasticsearch query"
  | _ => "elasticsearch query"

/-- Error string returned when `query` is missing (tools.ts lines 284-290). -/
def queryMissingError : String :=
  "Error: Missing required parameter: query. The search_elastic tool requires both \x27index\x27 and \x27query\x27 parameters."

/-- Embeds `ToolSystem.searchElastic` (tools.ts lines 275-371).  JavaScript
falsiness of `args.index` (absent or empty string) and of `args.query` (absent)
drives the validation branches; the success path composes `JSON.stringify`
(oracle), condensation at budget 128000, context extraction and rephrasing,
and the outer catch turns a backend throw into an error-prefixed string
(line 369).  The second component records every query issued to the backend. -/
def searchElastic (backend : ElasticQuery → Except String ElasticResult)
    (stringify : ElasticResult → String)
    (complete : String → Except String (Option String))
    (args : SearchArgs) : String × List ElasticQuery :=
  match args.index with
  | none => ("Error: Missing required parameter: index", [])
  | some idx =>
    if idx = "" then ("Error: Missing required parameter: index", [])
    else
      match args.query with
      | none => (queryMissingError, [])
      | some qObj =>
        let query : ElasticQuery :=
          { index := idx, query := qObj, size := jsSizeOrDefault args.size }
        match backend query with
        | .error e => ("Error searching Elasticsearch: " ++ e, [query])
        | .ok result =>
          let formattedResult := stringify result
          let condensedResult := condenseContent formattedResult 128000
          let originalQuery := extractOriginalQuery qObj
          (rephraseResults complete originalQuery condensedResult, [query])

/-- Trivial backend oracle for closed evaluations. -/
def stubBackend : ElasticQuery → Except String ElasticResult :=
  fun _ => .ok { total := 0, hits := [] }

/-- Trivial stringify oracle for closed evaluations. -/
def stubStringify : ElasticResult → String :=
  fun _ => "formatted"

/-- Trivial completion oracle for closed evaluations. -/
def stubComplete : String → Except String (Option String) :=
  fun _ => .ok none

/-- C4 (amended): with a truthy index and a present query object, the tool
issues exactly one backend query whose size is `args.size || 10` — size 10
when the argument is absent, and the given value passed through unchecked
otherwise.  The documented maximum of 100 in the schema is not enforced. -/
theorem searchElastic_size_passthrough
    (backend : ElasticQuery → Except String ElasticResult)
    (stringify : ElasticResult → String)
    (complete : String → Except String (Option String))
    (args : SearchArgs) (idx : String) (qObj : QueryObj)
    (hidx : args.index = some idx) (hidxT : idx ≠ "")
    (hq : args.query = some qObj) :
    (searchElastic backend stringify complete args).2
        = [{ index := idx, query := qObj, size := jsSizeOrDefault args.size }] ∧
    (args.size = none → jsSizeOrDefault args.size = 10) := by
  constructor
  · unfold searchElastic
    rw [hidx, hq]
    simp only [if_neg hidxT]
    cases backend { index := idx, query := qObj, size := jsSizeOrDefault args.size } <;> rfl
  · intro hs
    rw [hs]
    rfl

/-- Witness for C4 (amended) at concrete arguments without a size field. -/
theorem searchElastic_size_passthrough_witness :
    (({ index := some "codebase-store", query := some .matchAll } : SearchArgs).index
        = some "codebase-store") ∧
    (searchElastic stubBackend stubStringify stubComplete
        { index := some "codebase-store", query := some .matchAll }).2
      = [{ index := "codebase-store", query := .matchAll, size := 10 }] := by
  refine ⟨rfl, ?_⟩
  have h := searchElastic_size_passthrough stubBackend stubStringify stubComplete
    { index := some "codebase-store", query := some .matchAll }
    "codebase-store" .matchAll rfl (by decide) rfl
  rw [h.1]
  rfl

/-- C4 counterexample: an invocation with size 500 sends size 500 to the
backend — the claimed ceiling of 100 is not enforced anywhere in the code. -/
theorem searchElastic_size_unbounded :
    (searchElastic stubBackend stubStringify stubComplete
        { index := some "codebase-store", query := some .matchAll, size := some 500 }).2
      = [{ index := "codebase-store", query := .matchAll, size := 500 }] ∧
    100 < 500 := by
  constructor
  · rfl
  · decide

/-- C5 (amended): with a truthy index but no query field, the tool returns
(not throws) the fixed error string, which contains the word "query", and
issues zero backend queries. -/
theorem searchElastic_missing_query
    (backend : ElasticQuery → Except String ElasticResult)
    (stringify : ElasticResult → String)
    (complete : String → Except String (Option String))
    (idx : String) (hidxT : idx ≠ "") (s : Option Nat) :
    (searchElastic backend stringify complete
        { index := some idx, query := none, size := s }).1 = queryMissingError ∧
    "query".data <:+: queryMissingError.data ∧
    (searchElastic backend stringify complete
        { index := some idx, query := none, size := s }).2 = [] := by
  refine ⟨?_, by decide, ?_⟩ <;> simp [searchElastic, hidxT]

/-- Witness for C5 (amended) at a concrete index. -/
theorem searchElastic_missing_query_witness :
    ("codebase-store" ≠ "") ∧
    (searchElastic stubBackend stubStringify stubComplete
        { index := some "codebase-store", query := none }).1 = queryMissingError ∧
    (searchElastic stubBackend stubStringify stubComplete
        { index := some "codebase-store", query := none }).2 = [] :=
  ⟨by decide,
   (searchElastic_missing_query stubBackend stubStringify stubComplete
      "codebase-store" (by decide) none).1,
   (searchElastic_missing_query stubBackend stubStringify stubComplete
      "codebase-store" (by decide) none).2.2⟩

/-- C5 counterexample: when the arguments lack the query field and also lack
the index field, the returned error string names only `index` — it does not
contain the word "query" — though still with zero backend calls. -/
theorem searchElastic_missing_both_counterexample :
    (searchElastic stubBackend stubStringify stubComplete { }).1
        = "Error: Missing required parameter: index" ∧
    ¬ ("query".data <:+:
        (searchElastic stubBackend stubStringify stubComplete { }).1.data) ∧
    (searchElastic stubBackend stubStringify stubComplete { }).2 = [] := by
  refine ⟨rfl, ?_, rfl⟩
  decide

/-! ## Streaming tool-call reconstruction
(`src/src/providers/openai-provider.ts`, lines 72-99)

A streamed chunk carries in its `delta.tool_calls` entry an optional position
index, an optional call id, and optional fragments of the function name and
of the serialized arguments.  The provider keeps a sparse array indexed by
position; the sparse array is modelled as a function `Nat → Option AccToolCall`
that is `none` outside the initialized indices. -/

/-- One entry of a streamed `delta.tool_calls` array. -/
structure StreamDelta where
  index : Option Nat
  id : Option String := none
  fname : Option String := none
  fargs : Option String := none

/-- A tool call being accumulated by the provider (openai-provider.ts
lines 77-85). -/
structure AccToolCall where
  id : String
  name : String
  arguments : String
deriving DecidableEq

/-- JavaScript truthiness of an optional string (`if (x)`). -/
def jsTruthy (o : Option String) : Bool :=
  match o with
  | none => false
  | some s => s ≠ ""

/-- Slot initialization on first sight of an index (openai-provider.ts
lines 77-85): the id field falls back to the empty string when falsy, and
name and arguments start empty. -/
def initSlot (acc : Nat → Option AccToolCall) (d : StreamDelta) (i : Nat) :
    AccToolCall :=
  match acc i with
  | some c => c
  | none => { id := d.id.getD "", name := "", arguments := "" }

/-- Embeds `toolCall.function.name += toolCallDelta.function.name` guarded by
truthiness (openai-provider.ts lines 90-92). -/
def appendNameFragment (c : AccToolCall) (d : StreamDelta) : AccToolCall :=
  if jsTruthy d.fname then { c with name := c.name ++ d.fname.getD "" } else c

/-- Embeds `toolCall.function.arguments += toolCallDelta.function.arguments`
guarded by truthiness (openai-provider.ts lines 94-96). -/
def appendArgsFragment (c : AccToolCall) (d : StreamDelta) : AccToolCall :=
  if jsTruthy d.fargs then
    { c with arguments := c.arguments ++ d.fargs.getD "" }
  else c

/-- Embeds the body of the delta loop (openai-provider.ts lines 74-97):
skip entries without an index; initialize the slot on first sight; append the
name fragment, then the argument fragment, to the slot at that index. -/
def applyToolCallDelta (acc : Nat → Option AccToolCall) (d : StreamDelta) :
    Nat → Option AccToolCall :=
  match d.index with
  | none => acc
  | some i => fun j =>
    if j = i then some (appendArgsFragment (appendNameFragment (initSlot acc d i) d) d)
    else acc j

/-- Embeds the whole accumulation over a stream of deltas
(openai-provider.ts lines 54-100, restricted to the tool-call handling). -/
def accumulateToolCalls (ds : List StreamDelta) : Nat → Option AccToolCall :=
  ds.foldl applyToolCallDelta (fun _ => none)

/-- The singleton-or-empty fragment list contributed by one optional field. -/
def fragList (o : Option String) : List String :=
  match o with
  | some x => [x]
  | none => []

/-- The name fragments carrying index `i`, in arrival order. -/
def nameFragments (ds : List StreamDelta) (i : Nat) : List String :=
  ds.filterMap (fun d => if d.index = some i then d.fname else none)

/-- The argument fragments carrying index `i`, in arrival order. -/
def argFragments (ds : List StreamDelta) (i : Nat) : List String :=
  ds.filterMap (fun d => if d.index = some i then d.fargs else none)

theorem string_append_empty (s : String) : s ++ "" = s := by
  cases s with
  | mk data => show String.mk (data ++ []) = String.mk data; rw [List.append_nil]

theorem string_empty_append (s : String) : "" ++ s = s := rfl

theorem string_join_foldl (l : List String) (s : String) :
    l.foldl (fun r t => r ++ t) s = s ++ String.join l := by
  induction l generalizing s with
  | nil => simp [String.join, string_append_empty]
  | cons a l ih =>
    show l.foldl (fun r t => r ++ t) (s ++ a) = s ++ String.join (a :: l)
    rw [ih]
    have hj : String.join (a :: l) = a ++ String.join l := by
      show (a :: l).foldl (fun r t => r ++ t) "" = a ++ String.join l
      show l.foldl (fun r t => r ++ t) ("" ++ a) = a ++ String.join l
      rw [ih, string_empty_append]
    rw [hj, String.append_assoc]

theorem string_join_append (l₁ l₂ : List String) :
    String.join (l₁ ++ l₂) = String.join l₁ ++ String.join l₂ := by
  show (l₁ ++ l₂).foldl (fun r t => r ++ t) "" = String.join l₁ ++ String.join l₂
  rw [List.foldl_append, string_join_foldl, string_join_foldl,
      string_empty_append]

theorem appendNameFragment_name (c : AccToolCall) (d : StreamDelta) :
    (appendNameFragment c d).name = c.name ++ String.join (fragList d.fname) := by
  unfold appendNameFragment
  cases hf : d.fname with
  | none =>
    simp [jsTruthy, hf, fragList, String.join, string_append_empty]
  | some x =>
    by_cases hx : x = ""
    · subst hx
      simp [jsTruthy, hf, fragList, String.join, string_append_empty,
        string_empty_append]
    · simp [jsTruthy, hf, hx, fragList, String.join, Option.getD,
        string_empty_append]

theorem appendArgsFragment_arguments (c : AccToolCall) (d : StreamDelta) :
    (appendArgsFragment c d).arguments
        = c.arguments ++ String.join (fragList d.fargs) := by
  unfold appendArgsFragment
  cases hf : d.fargs with
  | none =>
    simp [jsTruthy, hf, fragList, String.join, string_append_empty]
  | some x =>
    by_cases hx : x = ""
    · subst hx
      simp [jsTruthy, hf, fragList, String.join, string_append_empty,
        string_empty_append]
    · simp [jsTruthy, hf, hx, fragList, String.join, Option.getD,
        string_empty_append]

theorem appendArgsFragment_name (c : AccToolCall) (d : StreamDelta) :
    (appendArgsFragment c d).name = c.name := by
  unfold appendArgsFragment
  split <;> rfl

theorem appendNameFragment_arguments (c : AccToolCall) (d : StreamDelta) :
    (appendNameFragment c d).arguments = c.arguments := by
  unfold appendNameFragment
  split <;> rfl

theorem accumulate_spec (ds : List StreamDelta) (i : Nat) :
    (accumulateToolCalls ds i = none →
        nameFragments ds i = [] ∧ argFragments ds i = []) ∧
    (∀ c, accumulateToolCalls ds i = some c →
        c.name = String.join (nameFragments ds i) ∧
        c.arguments = String.join (argFragments ds i)) := by
  induction ds using List.reverseRecOn with
  | nil => exact ⟨fun _ => ⟨rfl, rfl⟩, fun c h => by cases h⟩
  | append_singleton ds d ih =>
    have hacc : accumulateToolCalls (ds ++ [d])
        = applyToolCallDelta (accumulateToolCalls ds) d := by
      unfold accumulateToolCalls
      rw [List.foldl_append]
      rfl
    have hnf : nameFragments (ds ++ [d]) i
        = nameFragments ds i
            ++ (if d.index = some i then fragList d.fname else []) := by
      unfold nameFragments
      rw [List.filterMap_append]
      congr 1
      by_cases hdi : d.index = some i
      · rw [if_pos hdi]
        cases hf : d.fname <;> simp [List.filterMap_cons, hdi, hf, fragList]
      · rw [if_neg hdi]
        simp [List.filterMap_cons, hdi]
    have haf : argFragments (ds ++ [d]) i
        = argFragments ds i
            ++ (if d.index = some i then fragList d.fargs else []) := by
      unfold argFragments
      rw [List.filterMap_append]
      congr 1
      by_cases hdi : d.index = some i
      · rw [if_pos hdi]
        cases hf : d.fargs <;> simp [List.filterMap_cons, hdi, hf, fragList]
      · rw [if_neg hdi]
        simp [List.filterMap_cons, hdi]
    by_cases hdi : d.index = some i
    · -- the new delta touches slot i
      have happ : accumulateToolCalls (ds ++ [d]) i
          = some (appendArgsFragment
              (appendNameFragment (initSlot (accumulateToolCalls ds) d i) d) d) := by
        rw [hacc]
        unfold applyToolCallDelta
        rw [hdi]
        simp
      rw [hnf, haf, if_pos hdi, if_pos hdi]
      constructor
      · intro hnone
        rw [happ] at hnone
        cases hnone
      · intro c hc
        rw [happ] at hc
        have hc' := (Option.some.inj hc).symm
        subst hc'
        rw [appendArgsFragment_name, appendNameFragment_name,
            appendArgsFragment_arguments, appendNameFragment_arguments,
            string_join_append, string_join_append]
        cases hprev : accumulateToolCalls ds i with
        | none =>
          have hfr := ih.1 hprev
          rw [hfr.1, hfr.2]
          unfold initSlot
          rw [hprev]
          have hjoin_nil : String.join ([] : List String) = "" := rfl
          exact ⟨by rw [hjoin_nil, string_empty_append],
                 by rw [hjoin_nil, string_empty_append]⟩
        | some prev =>
          have hfr := ih.2 prev hprev
          unfold initSlot
          rw [hprev, hfr.1, hfr.2]
          exact ⟨rfl, rfl⟩
    · -- the new delta leaves slot i untouched
      have hslot : accumulateToolCalls (ds ++ [d]) i = accumulateToolCalls ds i := by
        rw [hacc]
        unfold applyToolCallDelta
        cases hd : d.index with
        | none => rfl
        | some j =>
          have hji : ¬ i = j := by
            intro h
            exact hdi (by rw [hd, h])
          simp only
          rw [if_neg hji]
      rw [hslot, hnf, haf, if_neg hdi, if_neg hdi,
          List.append_nil, List.append_nil]
      exact ih

/-- C9: a tool call finalized from a stream of incremental deltas has a name
equal to the concatenation, in arrival order, of all name fragments carrying
its index, and an argument string equal to the concatenation, in arrival
order, of all argument fragments carrying its index — fragments are
concatenated, never overwritten. -/
theorem streamCompletion_accumulates_fragments
    (ds : List StreamDelta) (i : Nat) (c : AccToolCall)
    (h : accumulateToolCalls ds i = some c) :
    c.name = String.join (nameFragments ds i) ∧
    c.arguments = String.join (argFragments ds i) :=
  (accumulate_spec ds i).2 c h

/-- Witness for C9 on a concrete fragmented stream: the name arrives in two
pieces and the arguments in three, interleaved with a second tool call at
index 1. -/
theorem streamCompletion_accumulates_fragments_witness :
    accumulateToolCalls
        [ { index := some 0, id := some "call_a", fname := some "search" },
          { index := some 1, id := some "call_b", fname := some "reply" },
          { index := some 0, fname := some "_elastic", fargs := some "ab" },
          { index := some 0, fargs := some "cd" },
          { index := some 0, fargs := some "ef" } ] 0
      = some { id := "call_a", name := "search_elastic", arguments := "abcdef" } ∧
    ({ id := "call_a", name := "search_elastic", arguments := "abcdef" } : AccToolCall).name
        = String.join (nameFragments
            [ { index := some 0, id := some "call_a", fname := some "search" },
              { index := some 1, id := some "call_b", fname := some "reply" },
              { index := some 0, fname := some "_elastic", fargs := some "ab" },
              { index := some 0, fargs := some "cd" },
              { index := some 0, fargs := some "ef" } ] 0) ∧
    ({ id := "call_a", name := "search_elastic", arguments := "abcdef" } : AccToolCall).arguments
        = String.join (argFragments
            [ { index := some 0, id := some "call_a", fname := some "search" },
              { index := some 1, id := some "call_b", fname := some "reply" },
              { index := some 0, fname := some "_elastic", fargs := some "ab" },
              { index := some 0, fargs := some "cd" },
              { index := some 0, fargs := some "ef" } ] 0) := by
  refine ⟨by decide, ?_⟩
  exact streamCompletion_accumulates_fragments _ 0 _ (by decide)

/-! ## Agent orchestration loop (`src/src/upload-codebase.ts`, lines 443-630)

The completion provider is modelled as a script: the list of outcomes of the
successive `streamCompletion` calls, each either a thrown error or a response
carrying the assembled content string and the finalized tool-call requests.
`JSON.parse` of the raw argument payload of a request is modelled by an
`Option ToolArgs` field (`none` for a payload that fails to parse), and
`ToolSystem.executeTool` is an oracle
`exec : String → ToolArgs → Except String String` giving the result
string or thrown error of each call.  Runs are paired with the list of `executeTool`
invocations they perform. -/

/-- Message roles of the `AgentMessage` interface (`src/src/types.ts`,
lines 36-42). -/
inductive Role where
  | system
  | user
  | assistant
  | tool
deriving DecidableEq

/-- Parsed tool-call arguments, as far as the agent loop itself reads them:
only `toolArgs.message` is accessed (upload-codebase.ts line 610); `none`
models an absent field. -/
structure ToolArgs where
  message : Option String := none
deriving DecidableEq

/-- A finalized tool-call request of an assistant turn
(`toolCall.id`, `toolCall.function.name`, `JSON.parse` of
`toolCall.function.arguments`). -/
structure ToolCallReq where
  id : String
  name : String
  argsRaw : Option ToolArgs
deriving DecidableEq

/-- Embeds the `AgentMessage` interface (`src/src/types.ts`, lines 36-42);
every message the loop appends carries a string content. -/
structure Msg where
  role : Role
  content : String
  tool_calls : List ToolCallReq := []
  tool_call_id : Option String := none
  name : Option String := none
deriving DecidableEq

/-- Embeds the `AgentState` interface (`src/src/types.ts`, lines 44-50). -/
structure AgentState where
  query : String
  messages : List Msg
  elasticResults : List ElasticResult := []
  isComplete : Bool
  finalResponse : Option String := none

/-- A provider response: the assembled content string (empty when no content
was streamed) and the finalized tool calls (empty when absent). -/
structure ProviderResponse where
  content : String
  tool_calls : List ToolCallReq := []
deriving DecidableEq

/-- The system instruction of `AIAgent.initializeState`
(upload-codebase.ts lines 509-523). -/
def systemPrompt : String :=
  "You are an AI assistant that helps users query and analyze data from an Elasticsearch database. \n\nYour goal is to:\n1. Understand the user\x27s question\n2. Explore the available data in Elasticsearch\n3. Refine your searches to find the most relevant information\n4. Provide a comprehensive answer based on the data found\n\nAvailable tools:\n- search_elastic: Search the database with specific queries\n- list_indices: See what data collections are available\n- get_mapping: Understand the structure of data in an index\n- reply: Provide your final answer to the user\n\nAlways start by exploring what data is available, then progressively refine your searches. When you have enough information to answer the user\x27s question comprehensively, use the reply tool to provide your final response."

/-- Embeds `AIAgent.initializeState` (upload-codebase.ts lines 503-533):
a system message and the user message, no results, not complete. -/
def initState (userQuery : String) : AgentState :=
  { query := userQuery,
    messages := [ { role := .system, content := systemPrompt },
                  { role := .user, content := userQuery } ],
    elasticResults := [],
    isComplete := false,
    finalResponse := none }

/-- The apologetic fallback of the message-count safety check
(upload-codebase.ts line 489). -/
def apologyMessage : String :=
  "I apologize, but I\x27m having trouble finding a complete answer. Please try rephrasing your question or being more specific."

/-- The loop-level error message (upload-codebase.ts line 495),
parameterized by the message text of the thrown error. -/
def loopErrorMessage (e : String) : String :=
  "An error occurred while processing your request: " ++ e

/-- The result string recorded for one `executeTool` invocation: the result
of the tool, or the catch-converted error string (upload-codebase.ts
lines 591-604). -/
def execResultString (exec : String → ToolArgs → Except String String)
    (toolName : String) (args : ToolArgs) : String :=
  match exec toolName args with
  | .ok r => r
  | .error e => "Error executing " ++ toolName ++ ": " ++ e

/-- The tool-role message appended for a non-reply tool call
(upload-codebase.ts lines 616-623). -/
def toolResultMsg (callId toolName result : String) : Msg :=
  { role := .tool, content := result,
    tool_call_id := some callId, name := some toolName }

/-- Embeds `AIAgent.handleToolCalls` (upload-codebase.ts lines 561-629) as a
pure function from the state and the batch to the updated state and the list
of `executeTool` invocations: a request whose payload fails to parse is
skipped (`continue`, line 586); otherwise the tool is executed (its thrown
errors converted to an error result, lines 591-604); a request named `reply`
sets the final response to its `message` argument, sets completion and stops
the batch (lines 606-613, the execution result of the reply itself being
discarded);
any other request appends a tool-role message and continues. -/
def handleToolCalls (exec : String → ToolArgs → Except String String) :
    AgentState → List ToolCallReq → AgentState × List (String × ToolArgs)
  | st, [] => (st, [])
  | st, c :: rest =>
    match c.argsRaw with
    | none => handleToolCalls exec st rest
    | some args =>
      if c.name = "reply" then
        ({ st with finalResponse := args.message, isComplete := true },
         [(c.name, args)])
      else
        let st2 : AgentState :=
          { st with messages := st.messages
              ++ [toolResultMsg c.id c.name (execResultString exec c.name args)] }
        let r := handleToolCalls exec st2 rest
        (r.1, (c.name, args) :: r.2)

/-- The assistant message appended by `AIAgent.callAIProvider`
(upload-codebase.ts lines 551-556). -/
def assistantMsg (resp : ProviderResponse) : Msg :=
  { role := .assistant, content := resp.content, tool_calls := resp.tool_calls }

/-- The state after `callAIProvider` has appended the assistant message. -/
def appendAssistant (st : AgentState) (resp : ProviderResponse) : AgentState :=
  { st with messages := st.messages ++ [assistantMsg resp] }

/-- Embeds one iteration of the `processQuery` loop body (upload-codebase.ts
lines 475-497): a provider throw is caught and forces completion with a
loop-level error message (the safety check is skipped on that path); otherwise
the assistant message is appended, a non-empty tool-call batch is dispatched,
else truthy content becomes the final response, else nothing happens; finally
the message-count safety check fires whenever more than 20 messages are
stored, overwriting the final response with the apologetic fallback. -/
def processTurn (exec : String → ToolArgs → Except String String)
    (st : AgentState) (r : Except String ProviderResponse) :
    AgentState × List (String × ToolArgs) :=
  match r with
  | .error e =>
    ({ st with finalResponse := some (loopErrorMessage e), isComplete := true }, [])
  | .ok resp =>
    let st1 := appendAssistant st resp
    let step :=
      if 0 < resp.tool_calls.length then handleToolCalls exec st1 resp.tool_calls
      else if resp.content = "" then (st1, [])
      else ({ st1 with finalResponse := some resp.content, isComplete := true }, [])
    if 20 < step.1.messages.length then
      ({ step.1 with finalResponse := some apologyMessage, isComplete := true },
       step.2)
    else step

/-- Embeds the `while (!this.state.isComplete)` loop of `AIAgent.processQuery`
(upload-codebase.ts lines 475-498), consuming one provider outcome per
iteration. -/
def runScript (exec : String → ToolArgs → Except String String) :
    AgentState → List (Except String ProviderResponse)
      → AgentState × List (String × ToolArgs)
  | st, [] => (st, [])
  | st, r :: rest =>
    if st.isComplete then (st, [])
    else
      let t := processTurn exec st r
      let k := runScript exec t.1 rest
      (k.1, t.2 ++ k.2)

/-- Embeds the return of `AIAgent.processQuery` (upload-codebase.ts line 500):
`finalResponse` unless falsy, else the sentinel — the sentinel replaces
a falsy (absent or empty) final response. -/
def finalOutput (st : AgentState) : String :=
  match st.finalResponse with
  | none => "No response generated."
  | some s => if s = "" then "No response generated." else s

/-- Embeds `AIAgent.processQuery` (upload-codebase.ts lines 472-501) end to
end against a provider script. -/
def processQuery (exec : String → ToolArgs → Except String String)
    (script : List (Except String ProviderResponse)) (userQuery : String) :
    String :=
  finalOutput (runScript exec (initState userQuery) script).1

/-- Tool-call oracle whose every execution succeeds, for closed runs. -/
def stubExec : String → ToolArgs → Except String String :=
  fun _ _ => .ok "ok"

/-- A well-formed `list_indices` tool-call request, for closed runs. -/
def lcCall : ToolCallReq :=
  { id := "call_l", name := "list_indices", argsRaw := some { } }

/-- A well-formed `reply` tool-call request carrying the given message. -/
def replyCall (m : String) : ToolCallReq :=
  { id := "call_r", name := "reply", argsRaw := some { message := some m } }

theorem runScript_complete (exec : String → ToolArgs → Except String String)
    (st : AgentState) (script : List (Except String ProviderResponse))
    (h : st.isComplete = true) :
    runScript exec st script = (st, []) := by
  cases script with
  | nil => rfl
  | cons r rest =>
    unfold runScript
    rw [h]
    rfl

theorem handleToolCalls_cons_none (exec : String → ToolArgs → Except String String)
    (st : AgentState) (c : ToolCallReq) (l : List ToolCallReq)
    (h : c.argsRaw = none) :
    handleToolCalls exec st (c :: l) = handleToolCalls exec st l := by
  conv_lhs => unfold handleToolCalls
  rw [h]

theorem handleToolCalls_cons_exec (exec : String → ToolArgs → Except String String)
    (st : AgentState) (c : ToolCallReq) (l : List ToolCallReq) (args : ToolArgs)
    (hargs : c.argsRaw = some args) (hname : ¬ c.name = "reply") :
    handleToolCalls exec st (c :: l)
      = ((handleToolCalls exec
            { st with messages := st.messages
                ++ [toolResultMsg c.id c.name (execResultString exec c.name args)] }
            l).1,
         (c.name, args)
           :: (handleToolCalls exec
            { st with messages := st.messages
                ++ [toolResultMsg c.id c.name (execResultString exec c.name args)] }
            l).2) := by
  conv_lhs => unfold handleToolCalls
  rw [hargs]
  simp only [if_neg hname]

theorem handleToolCalls_append (exec : String → ToolArgs → Except String String)
    (pre rest : List ToolCallReq)
    (hpre : ∀ c ∈ pre, c.name = "reply" → c.argsRaw = none) :
    ∀ st : AgentState,
      handleToolCalls exec st (pre ++ rest)
        = ((handleToolCalls exec (handleToolCalls exec st pre).1 rest).1,
           (handleToolCalls exec st pre).2
             ++ (handleToolCalls exec (handleToolCalls exec st pre).1 rest).2) := by
  induction pre with
  | nil =>
    intro st
    rfl
  | cons c pre ih =>
    intro st
    have hc := hpre c (List.mem_cons_self c pre)
    have hpre' : ∀ x ∈ pre, x.name = "reply" → x.argsRaw = none :=
      fun x hx => hpre x (List.mem_cons_of_mem c hx)
    cases hargs : c.argsRaw with
    | none =>
      rw [List.cons_append, handleToolCalls_cons_none exec st c (pre ++ rest) hargs,
          handleToolCalls_cons_none exec st c pre hargs]
      exact ih hpre' st
    | some args =>
      have hname : ¬ c.name = "reply" := by
        intro h
        rw [hc h] at hargs
        cases hargs
      rw [List.cons_append,
          handleToolCalls_cons_exec exec st c (pre ++ rest) args hargs hname,
          handleToolCalls_cons_exec exec st c pre args hargs hname,
          ih hpre']
      rfl

theorem handleToolCalls_reply_head (exec : String → ToolArgs → Except String String)
    (st : AgentState) (c : ToolCallReq) (rest : List ToolCallReq) (args : ToolArgs)
    (hname : c.name = "reply") (hargs : c.argsRaw = some args) :
    handleToolCalls exec st (c :: rest)
      = ({ st with finalResponse := args.message, isComplete := true },
         [("reply", args)]) := by
  conv_lhs => unfold handleToolCalls
  rw [hargs, hname]
  simp

theorem handleToolCalls_no_reply (exec : String → ToolArgs → Except String String)
    (calls : List ToolCallReq)
    (hnr : ∀ c ∈ calls, c.name ≠ "reply") :
    ∀ st : AgentState, ∃ ms : List Msg,
      (handleToolCalls exec st calls).1
          = { st with messages := st.messages ++ ms } ∧
      ms.length ≤ calls.length := by
  induction calls with
  | nil =>
    intro st
    refine ⟨[], ?_, by decide⟩
    show st = _
    rw [List.append_nil]
  | cons c calls ih =>
    intro st
    have hc := hnr c (List.mem_cons_self c calls)
    have hnr' : ∀ x ∈ calls, x.name ≠ "reply" :=
      fun x hx => hnr x (List.mem_cons_of_mem c hx)
    cases hargs : c.argsRaw with
    | none =>
      obtain ⟨ms, hms, hlen⟩ := ih hnr' st
      refine ⟨ms, ?_, Nat.le_succ_of_le hlen⟩
      unfold handleToolCalls
      rw [hargs]
      exact hms
    | some args =>
      set m := toolResultMsg c.id c.name (execResultString exec c.name args)
      obtain ⟨ms, hms, hlen⟩ :=
        ih hnr' { st with messages := st.messages ++ [m] }
      refine ⟨[m] ++ ms, ?_, by simpa using Nat.succ_le_succ hlen⟩
      unfold handleToolCalls
      rw [hargs]
      simp only [if_neg hc]
      rw [hms]
      simp [List.append_assoc]

theorem reply_turn (exec : String → ToolArgs → Except String String)
    (st : AgentState) (resp : ProviderResponse)
    (rest : List (Except String ProviderResponse))
    (pre post : List ToolCallReq) (rc : ToolCallReq) (args : ToolArgs)
    (hst : st.isComplete = false)
    (hname : rc.name = "reply") (hargs : rc.argsRaw = some args)
    (hpre : ∀ c ∈ pre, c.name = "reply" → c.argsRaw = none)
    (hcalls : resp.tool_calls = pre ++ rc :: post)
    (hceil : (handleToolCalls exec (appendAssistant st resp) pre).1.messages.length
              ≤ 20) :
    runScript exec st (.ok resp :: rest)
      = ({ (handleToolCalls exec (appendAssistant st resp) pre).1 with
             finalResponse := args.message, isComplete := true },
         (handleToolCalls exec (appendAssistant st resp) pre).2
           ++ [("reply", args)]) := by
  have hbatch : handleToolCalls exec (appendAssistant st resp) resp.tool_calls
      = ({ (handleToolCalls exec (appendAssistant st resp) pre).1 with
             finalResponse := args.message, isComplete := true },
         (handleToolCalls exec (appendAssistant st resp) pre).2
           ++ [("reply", args)]) := by
    rw [hcalls, handleToolCalls_append exec pre (rc :: post) hpre,
        handleToolCalls_reply_head exec _ rc post args hname hargs]
  have hnonempty : 0 < resp.tool_calls.length := by
    rw [hcalls, List.length_append]
    simp
  have hturn : processTurn exec st (.ok resp)
      = ({ (handleToolCalls exec (appendAssistant st resp) pre).1 with
             finalResponse := args.message, isComplete := true },
         (handleToolCalls exec (appendAssistant st resp) pre).2
           ++ [("reply", args)]) := by
    unfold processTurn
    simp only [if_pos hnonempty, hbatch]
    rw [if_neg (by simpa using hceil)]
  unfold runScript
  rw [hst]
  simp only [Bool.false_eq_true, if_false, hturn]
  rw [runScript_complete exec _ rest rfl]
  simp

/-- C1 (amended): a dispatched batch containing a `reply` request whose
arguments parse terminates the loop with the completion flag set, executes
no tool call positioned after that reply (the executed calls are exactly
those of the batch prefix plus the reply itself), and — provided the stored
conversation holds at most 20 messages when the safety check of that
iteration runs — the final response equals the `message` argument of the
reply. -/
theorem reply_terminates_loop (exec : String → ToolArgs → Except String String)
    (st : AgentState) (resp : ProviderResponse)
    (rest : List (Except String ProviderResponse))
    (pre post : List ToolCallReq) (rc : ToolCallReq) (args : ToolArgs)
    (hst : st.isComplete = false)
    (hname : rc.name = "reply") (hargs : rc.argsRaw = some args)
    (hpre : ∀ c ∈ pre, c.name = "reply" → c.argsRaw = none)
    (hcalls : resp.tool_calls = pre ++ rc :: post)
    (hceil : (handleToolCalls exec (appendAssistant st resp) pre).1.messages.length
              ≤ 20) :
    (runScript exec st (.ok resp :: rest)).1.isComplete = true ∧
    (runScript exec st (.ok resp :: rest)).1.finalResponse = args.message ∧
    (runScript exec st (.ok resp :: rest)).2
      = (handleToolCalls exec (appendAssistant st resp) pre).2
          ++ [("reply", args)] := by
  rw [reply_turn exec st resp rest pre post rc args hst hname hargs hpre hcalls hceil]
  exact ⟨rfl, rfl, rfl⟩

/-- Witness for C1 (amended): a single-turn script whose batch is one parsed
`reply` call with message "hi". -/
theorem reply_terminates_loop_witness :
    ((initState "q").isComplete = false) ∧
    ((handleToolCalls stubExec
        (appendAssistant (initState "q") { content := "", tool_calls := [replyCall "hi"] })
        []).1.messages.length ≤ 20) ∧
    (runScript stubExec (initState "q")
        [.ok { content := "", tool_calls := [replyCall "hi"] }]).1.isComplete = true ∧
    (runScript stubExec (initState "q")
        [.ok { content := "", tool_calls := [replyCall "hi"] }]).1.finalResponse
      = some "hi" ∧
    (runScript stubExec (initState "q")
        [.ok { content := "", tool_calls := [replyCall "hi"] }]).2
      = [("reply", { message := some "hi" })] := by
  refine ⟨rfl, by decide, ?_⟩
  have h := reply_terminates_loop stubExec (initState "q")
    { content := "", tool_calls := [replyCall "hi"] } [] [] []
    (replyCall "hi") { message := some "hi" }
    rfl rfl rfl (by intro c hc; cases hc) rfl (by decide)
  exact ⟨h.1, h.2.1, h.2.2⟩

/-- C1 counterexample: a batch of 18 parsed non-reply calls followed by a
parsed reply "hi" pushes the stored conversation to 21 messages, so the
safety check overwrites the message of the reply with the apologetic fallback —
the loop does not finish with final response "hi". -/
theorem reply_overwritten_by_ceiling :
    (runScript stubExec (initState "q")
        [.ok { content := "",
               tool_calls := List.replicate 18 lcCall ++ [replyCall "hi"] }]).1.isComplete
      = true ∧
    (runScript stubExec (initState "q")
        [.ok { content := "",
               tool_calls := List.replicate 18 lcCall ++ [replyCall "hi"] }]).1.finalResponse
      = some apologyMessage ∧
    some apologyMessage ≠ (some "hi" : Option String) := by
  refine ⟨by decide, by decide, by decide⟩

/-- C7: a request whose raw argument payload fails to parse is skipped
without aborting the batch: the dispatch of a batch containing it produces
exactly the state and the execution log of the same batch with that request
deleted — no tool is executed for it, no tool-role message is appended for
it, and the remaining requests (and hence subsequent turns, which only see
the resulting state) proceed unchanged. -/
theorem unparsable_request_skipped (exec : String → ToolArgs → Except String String)
    (st : AgentState) (pre post : List ToolCallReq) (c : ToolCallReq)
    (h : c.argsRaw = none) :
    handleToolCalls exec st (pre ++ c :: post)
      = handleToolCalls exec st (pre ++ post) := by
  induction pre generalizing st with
  | nil =>
    exact handleToolCalls_cons_none exec st c post h
  | cons d pre ih =>
    cases hd : d.argsRaw with
    | none =>
      rw [List.cons_append,
          handleToolCalls_cons_none exec st d (pre ++ c :: post) hd,
          List.cons_append,
          handleToolCalls_cons_none exec st d (pre ++ post) hd]
      exact ih st
    | some args =>
      by_cases hname : d.name = "reply"
      · rw [List.cons_append,
            handleToolCalls_reply_head exec st d (pre ++ c :: post) args hname hd,
            List.cons_append,
            handleToolCalls_reply_head exec st d (pre ++ post) args hname hd]
      · rw [List.cons_append,
            handleToolCalls_cons_exec exec st d (pre ++ c :: post) args hd hname,
            List.cons_append,
            handleToolCalls_cons_exec exec st d (pre ++ post) args hd hname,
            ih]

/-- Witness for C7 at a concrete batch: deleting the unparsable middle
request leaves the dispatch unchanged. -/
theorem unparsable_request_skipped_witness :
    (({ id := "bad", name := "search_elastic", argsRaw := none } : ToolCallReq).argsRaw
        = none) ∧
    handleToolCalls stubExec (initState "q")
        [lcCall, { id := "bad", name := "search_elastic", argsRaw := none }, lcCall]
      = handleToolCalls stubExec (initState "q") [lcCall, lcCall] :=
  ⟨rfl,
   unparsable_request_skipped stubExec (initState "q") [lcCall] [lcCall]
     { id := "bad", name := "search_elastic", argsRaw := none } rfl⟩

/-- A turn outcome that neither errors, nor lacks tool calls, nor contains a
`reply` request — the runs quantified over by the ceiling claim. -/
def qualifyingTurn : Except String ProviderResponse → Bool
  | .error _ => false
  | .ok resp =>
    !resp.tool_calls.isEmpty && resp.tool_calls.all (fun c => c.name != "reply")

/-- The largest tool-call batch of a script. -/
def maxBatch : List (Except String ProviderResponse) → Nat
  | [] => 0
  | .error _ :: rest => maxBatch rest
  | .ok resp :: rest => max resp.tool_calls.length (maxBatch rest)

theorem runScript_cons (exec : String → ToolArgs → Except String String)
    (st : AgentState) (r : Except String ProviderResponse)
    (rest : List (Except String ProviderResponse))
    (h : st.isComplete = false) :
    runScript exec st (r :: rest)
      = ((runScript exec (processTurn exec st r).1 rest).1,
         (processTurn exec st r).2
           ++ (runScript exec (processTurn exec st r).1 rest).2) := by
  conv_lhs => unfold runScript
  rw [h]
  simp

theorem ceiling_main (exec : String → ToolArgs → Except String String) :
    ∀ (script : List (Except String ProviderResponse)) (st : AgentState),
      script.all qualifyingTurn = true →
      st.isComplete = false →
      st.messages.length ≤ 20 →
      21 ≤ st.messages.length + script.length →
      (runScript exec st script).1.isComplete = true ∧
      (runScript exec st script).1.finalResponse = some apologyMessage ∧
      21 ≤ (runScript exec st script).1.messages.length ∧
      (runScript exec st script).1.messages.length ≤ 21 + maxBatch script := by
  intro script
  induction script with
  | nil =>
    intro st _ _ hle h21
    exfalso
    simp only [List.length_nil] at h21
    omega
  | cons r rest ih =>
    intro st hq hst hle h21
    have hqr : qualifyingTurn r = true := by
      have := List.all_eq_true.mp hq r (List.mem_cons_self r rest)
      exact this
    have hqrest : rest.all qualifyingTurn = true := by
      refine List.all_eq_true.mpr ?_
      intro x hx
      exact List.all_eq_true.mp hq x (List.mem_cons_of_mem r hx)
    cases r with
    | error e =>
      exact absurd hqr (by simp [qualifyingTurn])
    | ok resp =>
      have hne : resp.tool_calls ≠ [] := by
        intro hnil
        rw [qualifyingTurn] at hqr
        rw [hnil] at hqr
        simp at hqr
      have hnr : ∀ c ∈ resp.tool_calls, c.name ≠ "reply" := by
        intro c hc
        rw [qualifyingTurn] at hqr
        have hall := (Bool.and_eq_true _ _).mp hqr |>.2
        have := List.all_eq_true.mp hall c hc
        simpa using this
      have hpos0 : 0 < resp.tool_calls.length := List.length_pos.mpr hne
      obtain ⟨ms, hms, hmslen⟩ :=
        handleToolCalls_no_reply exec resp.tool_calls hnr (appendAssistant st resp)
      have hlen1 : (handleToolCalls exec (appendAssistant st resp)
          resp.tool_calls).1.messages.length
            = st.messages.length + 1 + ms.length := by
        rw [hms]
        show ((appendAssistant st resp).messages ++ ms).length = _
        rw [List.length_append]
        show ((st.messages ++ [assistantMsg resp]).length + ms.length) = _
        rw [List.length_append]
        simp
      have hcompl : (handleToolCalls exec (appendAssistant st resp)
          resp.tool_calls).1.isComplete = false := by
        rw [hms]
        exact hst
      have hfree : (handleToolCalls exec (appendAssistant st resp)
          resp.tool_calls).1.finalResponse = st.finalResponse := by
        rw [hms]
        rfl
      have hturn : processTurn exec st (.ok resp)
          = (if 20 < (handleToolCalls exec (appendAssistant st resp)
                resp.tool_calls).1.messages.length
             then ({ (handleToolCalls exec (appendAssistant st resp)
                        resp.tool_calls).1 with
                       finalResponse := some apologyMessage, isComplete := true },
                   (handleToolCalls exec (appendAssistant st resp)
                        resp.tool_calls).2)
             else handleToolCalls exec (appendAssistant st resp) resp.tool_calls) := by
        unfold processTurn
        simp only [if_pos hpos0]
      rw [runScript_cons exec st (.ok resp) rest hst]
      by_cases hover : 20 < st.messages.length + 1 + ms.length
      · have ht : processTurn exec st (.ok resp)
            = ({ (handleToolCalls exec (appendAssistant st resp)
                    resp.tool_calls).1 with
                   finalResponse := some apologyMessage, isComplete := true },
               (handleToolCalls exec (appendAssistant st resp) resp.tool_calls).2) := by
          rw [hturn, hlen1, if_pos hover]
        rw [ht, runScript_complete exec _ rest rfl]
        refine ⟨rfl, rfl, ?_, ?_⟩
        · show 21 ≤ (handleToolCalls exec (appendAssistant st resp)
              resp.tool_calls).1.messages.length
          omega
        · show (handleToolCalls exec (appendAssistant st resp)
              resp.tool_calls).1.messages.length ≤ 21 + maxBatch (.ok resp :: rest)
          rw [hlen1, show maxBatch (.ok resp :: rest)
              = max resp.tool_calls.length (maxBatch rest) from rfl]
          have h1 : ms.length ≤ max resp.tool_calls.length (maxBatch rest) :=
            le_trans hmslen (Nat.le_max_left _ _)
          omega
      · have ht : processTurn exec st (.ok resp)
            = handleToolCalls exec (appendAssistant st resp) resp.tool_calls := by
          rw [hturn, hlen1, if_neg hover]
        rw [ht]
        have hrec := ih (handleToolCalls exec (appendAssistant st resp)
            resp.tool_calls).1 hqrest hcompl (by omega)
          (by
            simp only [List.length_cons] at h21
            omega)
        refine ⟨hrec.1, hrec.2.1, hrec.2.2.1, ?_⟩
        rw [show maxBatch (.ok resp :: rest)
            = max resp.tool_calls.length (maxBatch rest) from rfl]
        exact le_trans hrec.2.2.2
          (Nat.add_le_add_left (Nat.le_max_right _ _) 21)

/-- C2 (amended): a run whose every consumed turn has a non-empty tool-call
batch and no `reply` request is forced to terminate by the message-count
ceiling with the fixed apologetic fallback message; at the moment termination
is forced the stored conversation holds at least 21 messages and at most
21 + B messages, where B is the largest tool-call batch of the run (so at
most 22 when every batch has a single call — the conversation was at most 20
messages at every earlier safety check). -/
theorem ceiling_forces_apology (exec : String → ToolArgs → Except String String)
    (script : List (Except String ProviderResponse)) (q : String)
    (hq : script.all qualifyingTurn = true)
    (hlen : 19 ≤ script.length) :
    (runScript exec (initState q) script).1.isComplete = true ∧
    (runScript exec (initState q) script).1.finalResponse = some apologyMessage ∧
    21 ≤ (runScript exec (initState q) script).1.messages.length ∧
    (runScript exec (initState q) script).1.messages.length
      ≤ 21 + maxBatch script := by
  have h2 : (initState q).messages.length = 2 := rfl
  refine ceiling_main exec script (initState q) hq rfl (by omega) (by omega)

/-- Witness for C2 (amended): nineteen single-call turns force the ceiling. -/
theorem ceiling_forces_apology_witness :
    ((List.replicate 19 (Except.ok { content := "", tool_calls := [lcCall] }
        : Except String ProviderResponse)).all qualifyingTurn = true) ∧
    (19 ≤ (List.replicate 19 (Except.ok { content := "", tool_calls := [lcCall] }
        : Except String ProviderResponse)).length) ∧
    (runScript stubExec (initState "q")
        (List.replicate 19 (Except.ok { content := "", tool_calls := [lcCall] }
          : Except String ProviderResponse))).1.isComplete = true ∧
    (runScript stubExec (initState "q")
        (List.replicate 19 (Except.ok { content := "", tool_calls := [lcCall] }
          : Except String ProviderResponse))).1.finalResponse
      = some apologyMessage := by
  have h := ceiling_forces_apology stubExec
    (List.replicate 19 (Except.ok { content := "", tool_calls := [lcCall] }
      : Except String ProviderResponse)) "q" (by decide) (by decide)
  exact ⟨by decide, by decide, h.1, h.2.1⟩

/-- C2 counterexample: one qualifying turn with thirty parsed non-reply calls
leaves 33 stored messages at the moment the ceiling forces termination —
more than the claimed 21. -/
theorem ceiling_messages_exceed_21 :
    (runScript stubExec (initState "q")
        [.ok { content := "", tool_calls := List.replicate 30 lcCall }]).1.isComplete
      = true ∧
    (runScript stubExec (initState "q")
        [.ok { content := "", tool_calls := List.replicate 30 lcCall }]).1.finalResponse
      = some apologyMessage ∧
    (runScript stubExec (initState "q")
        [.ok { content := "", tool_calls := List.replicate 30 lcCall }]).1.messages.length
      = 33 ∧
    21 < 33 := by
  exact ⟨by decide, by decide, by decide, by decide⟩

/-- Tool-call oracle mirroring the behaviour of `executeTool` on an unknown tool
name (tools.ts lines 260-261 and 268-272): the execution throws. -/
def errExec : String → ToolArgs → Except String String :=
  fun n _ => if n = "reply" then .ok "REPLY: done" else .error ("Unknown tool: " ++ n)

/-- A parsed tool-call request naming an unknown tool. -/
def fooCall : ToolCallReq :=
  { id := "call_f", name := "foo", argsRaw := some { } }

/-- C8 (amended): processQuery never propagates an exception.  A provider
throw is caught at the loop level, sets the final response to a user-visible
message describing the error and forces completion; a tool-dispatch throw is
caught at the tool-call level and converted into an error-string tool result
with the loop continuing; and when no final response was ever set the
sentinel is returned. -/
theorem process_errors_handled (exec : String → ToolArgs → Except String String)
    (st : AgentState) (e : String)
    (c : ToolCallReq) (rest : List ToolCallReq) (args : ToolArgs) (e2 : String)
    (hargs : c.argsRaw = some args) (hnr : ¬ c.name = "reply")
    (hexec : exec c.name args = .error e2) :
    processTurn exec st (.error e)
      = ({ st with finalResponse := some (loopErrorMessage e), isComplete := true },
         []) ∧
    handleToolCalls exec st (c :: rest)
      = ((handleToolCalls exec
            { st with messages := st.messages
                ++ [toolResultMsg c.id c.name
                      ("Error executing " ++ c.name ++ ": " ++ e2)] } rest).1,
         (c.name, args)
           :: (handleToolCalls exec
            { st with messages := st.messages
                ++ [toolResultMsg c.id c.name
                      ("Error executing " ++ c.name ++ ": " ++ e2)] } rest).2) ∧
    (st.finalResponse = none → finalOutput st = "No response generated.") := by
  have hconv : execResultString exec c.name args
      = "Error executing " ++ c.name ++ ": " ++ e2 := by
    unfold execResultString
    rw [hexec]
  refine ⟨rfl, ?_, ?_⟩
  · rw [handleToolCalls_cons_exec exec st c rest args hargs hnr, hconv]
  · intro h
    unfold finalOutput
    rw [h]

/-- Witness for C8 (amended) at a concrete erroring dispatch and provider
error. -/
theorem process_errors_handled_witness :
    (fooCall.argsRaw = some { }) ∧
    (errExec "foo" { } = .error "Unknown tool: foo") ∧
    processTurn errExec (initState "q") (.error "boom")
      = ({ initState "q" with
             finalResponse := some (loopErrorMessage "boom"), isComplete := true },
         []) ∧
    finalOutput (initState "q") = "No response generated." := by
  have h := process_errors_handled errExec (initState "q") "boom" fooCall []
    { } "Unknown tool: foo" rfl (by decide) rfl
  exact ⟨rfl, rfl, h.1, h.2.2 rfl⟩

/-- C8 counterexample: a tool-dispatch error (unknown tool) is converted into
a tool result and the loop continues — completion is not forced and the final
response is not an error description; the run then ends normally with a later
reply. -/
theorem dispatch_error_does_not_force_completion :
    (errExec "foo" { } = .error "Unknown tool: foo") ∧
    (processTurn errExec (initState "q")
        (.ok { content := "", tool_calls := [fooCall] })).1.isComplete = false ∧
    (processTurn errExec (initState "q")
        (.ok { content := "", tool_calls := [fooCall] })).1.finalResponse = none ∧
    processQuery errExec
        [.ok { content := "", tool_calls := [fooCall] },
         .ok { content := "", tool_calls := [replyCall "done"] }] "q"
      = "done" := by
  exact ⟨rfl, by decide, by decide, by decide⟩

/-- C10 (amended): a dispatched `reply` whose parsed `message` argument is
the empty string sets completion and stores the empty string as the final
response, and — provided the stored conversation holds at most 20 messages
when the safety check of that iteration runs — processQuery substitutes the
sentinel for that falsy final response. -/
theorem empty_reply_message_sentinel (exec : String → ToolArgs → Except String String)
    (st : AgentState) (resp : ProviderResponse)
    (rest : List (Except String ProviderResponse))
    (pre post : List ToolCallReq) (rc : ToolCallReq)
    (hst : st.isComplete = false)
    (hname : rc.name = "reply")
    (hargs : rc.argsRaw = some { message := some "" })
    (hpre : ∀ c ∈ pre, c.name = "reply" → c.argsRaw = none)
    (hcalls : resp.tool_calls = pre ++ rc :: post)
    (hceil : (handleToolCalls exec (appendAssistant st resp) pre).1.messages.length
              ≤ 20) :
    (runScript exec st (.ok resp :: rest)).1.isComplete = true ∧
    (runScript exec st (.ok resp :: rest)).1.finalResponse = some "" ∧
    finalOutput (runScript exec st (.ok resp :: rest)).1
      = "No response generated." := by
  rw [reply_turn exec st resp rest pre post rc { message := some "" }
      hst hname hargs hpre hcalls hceil]
  exact ⟨rfl, rfl, rfl⟩

/-- Witness for C10 (amended) at a single-turn script whose batch is one
`reply` call with an empty message. -/
theorem empty_reply_message_sentinel_witness :
    ((initState "q").isComplete = false) ∧
    ((handleToolCalls stubExec
        (appendAssistant (initState "q") { content := "", tool_calls := [replyCall ""] })
        []).1.messages.length ≤ 20) ∧
    (runScript stubExec (initState "q")
        [.ok { content := "", tool_calls := [replyCall ""] }]).1.finalResponse
      = some "" ∧
    finalOutput (runScript stubExec (initState "q")
        [.ok { content := "", tool_calls := [replyCall ""] }]).1
      = "No response generated." := by
  have h := empty_reply_message_sentinel stubExec (initState "q")
    { content := "", tool_calls := [replyCall ""] } [] [] [] (replyCall "")
    rfl rfl rfl (by intro c hc; cases hc) rfl (by decide)
  exact ⟨rfl, by decide, h.2.1, h.2.2⟩

/-- C10 counterexample: when the safety ceiling fires in the same iteration,
the stored final response is the apologetic fallback, so processQuery returns
the fallback rather than the sentinel. -/
theorem empty_reply_not_sentinel_under_ceiling :
    (runScript stubExec (initState "q")
        [.ok { content := "",
               tool_calls := List.replicate 18 lcCall ++ [replyCall ""] }]).1.finalResponse
      = some apologyMessage ∧
    processQuery stubExec
        [.ok { content := "",
               tool_calls := List.replicate 18 lcCall ++ [replyCall ""] }] "q"
      = apologyMessage ∧
    apologyMessage ≠ "No response generated." := by
  exact ⟨by decide, by decide, by decide⟩

end ElasticAgent
